import Mathlib

/-!
Shallow embedding of the deoAI faceless-video pipeline.

The embedded modules are script_processor.py (scene segmentation),
voiceover_generator.py (per-scene TTS with silence fallbacks),
visual_generator.py (per-scene image synthesis), video_assembler.py
(concatenation and background-music mix) and the two orchestrators
app_cli.py / app.py. External engines (the NLTK sentence tokenizer,
Chatterbox TTS, Stable Diffusion, moviepy decoding) are black boxes per
the specification and are modelled as oracles carried in an environment
record; control flow, fallback policy, emitted signals and output paths
are translated from the source.
-/

/-- Python strings are embedded as lists of characters. -/
abbrev Str := List Char

/-- ASCII approximation of the Python whitespace class used by the regex
escape for whitespace and by str.strip / str.split: space, tab, newline,
carriage return, vertical tab, form feed. -/
def isPySpace (c : Char) : Bool :=
  c = ' ' || c = '\t' || c = '\n' || c = '\r' || c = Char.ofNat 11 || c = Char.ofNat 12

/-- Python str.lstrip with no argument (strip leading whitespace). -/
def lstrip (l : Str) : Str := l.dropWhile isPySpace

/-- Python str.rstrip with no argument (strip trailing whitespace). -/
def rstrip (l : Str) : Str := (l.reverse.dropWhile isPySpace).reverse

/-- Python str.strip with no argument. -/
def pyStrip (l : Str) : Str := rstrip (lstrip l)

/-- The string holds at least one non-whitespace character. -/
def hasContent (l : Str) : Bool := l.any (fun c => !isPySpace c)

lemma mem_dropWhile_of_pred_false {p : Char → Bool} {c : Char} (hc : p c = false) :
    ∀ {l : Str}, c ∈ l → c ∈ l.dropWhile p := by
  intro l
  induction l with
  | nil => intro h; exact absurd h (List.not_mem_nil c)
  | cons a t ih =>
    intro h
    by_cases ha : p a = true
    · rw [List.dropWhile_cons_of_pos ha]
      rcases List.mem_cons.mp h with h1 | h2
      · exact absurd (h1 ▸ ha) (by simp [hc])
      · exact ih h2
    · rw [List.dropWhile_cons_of_neg ha]
      exact h

lemma mem_pyStrip {l : Str} {c : Char} (hm : c ∈ l) (hc : isPySpace c = false) :
    c ∈ pyStrip l := by
  unfold pyStrip rstrip lstrip
  have h1 : c ∈ l.dropWhile isPySpace := mem_dropWhile_of_pred_false hc hm
  have h2 : c ∈ (l.dropWhile isPySpace).reverse := List.mem_reverse.mpr h1
  exact List.mem_reverse.mpr (mem_dropWhile_of_pred_false hc h2)

lemma exists_of_hasContent {l : Str} (h : hasContent l = true) :
    ∃ c ∈ l, isPySpace c = false := by
  rcases List.any_eq_true.mp h with ⟨c, hm, hc⟩
  exact ⟨c, hm, by simpa using hc⟩

lemma hasContent_of_mem {l : Str} {c : Char} (hm : c ∈ l) (hc : isPySpace c = false) :
    hasContent l = true :=
  List.any_eq_true.mpr ⟨c, hm, by simp [hc]⟩

lemma pyStrip_ne_nil_of_hasContent {l : Str} (h : hasContent l = true) :
    pyStrip l ≠ [] := by
  rcases exists_of_hasContent h with ⟨c, hm, hc⟩
  exact List.ne_nil_of_mem (mem_pyStrip hm hc)

lemma hasContent_pyStrip {l : Str} (h : hasContent l = true) :
    hasContent (pyStrip l) = true := by
  rcases exists_of_hasContent h with ⟨c, hm, hc⟩
  exact hasContent_of_mem (mem_pyStrip hm hc) hc

lemma hasContent_of_pyStrip_ne_nil {l : Str} (h : pyStrip l ≠ []) :
    hasContent l = true := by
  by_contra hno
  apply h
  have hall : ∀ x ∈ l, isPySpace x = true := by
    intro x hx
    by_contra hxs
    exact hno (hasContent_of_mem hx (by simpa using hxs))
  have hl : lstrip l = [] := by
    unfold lstrip
    exact List.dropWhile_eq_nil_iff.mpr hall
  unfold pyStrip
  rw [hl]
  rfl

lemma hasContent_append_left {a b : Str} (h : hasContent a = true) :
    hasContent (a ++ b) = true := by
  rcases exists_of_hasContent h with ⟨c, hm, hc⟩
  exact hasContent_of_mem (List.mem_append_left b hm) hc

/-! ## ScriptProcessor.split_script_into_scenes (script_processor.py)

The NLTK sentence tokenizer is an external engine; it enters as the oracle
parameter `tok`. Everything else is translated from the source. -/

/-- Python replace of a carriage-return-newline pair by a newline. -/
def replaceCrLf : Str → Str
  | [] => []
  | '\r' :: '\n' :: rest => '\n' :: replaceCrLf rest
  | c :: rest => c :: replaceCrLf rest

/-- Python replace of a lone carriage return by a newline. -/
def replaceCr (l : Str) : Str := l.map (fun c => if c = '\r' then '\n' else c)

/-- Regex substitution collapsing every run of two or more newlines into
exactly two newlines; `run` counts the newlines already seen in the current
run. -/
def collapseNlGo (run : Nat) : Str → Str
  | [] => []
  | c :: rest =>
    if c = '\n' then (if run < 2 then ['\n'] else []) ++ collapseNlGo (run + 1) rest
    else c :: collapseNlGo 0 rest

def collapseNl (l : Str) : Str := collapseNlGo 0 l

/-- Python split on the two-character separator of two newlines. -/
def splitParas : Str → List Str
  | [] => [[]]
  | '\n' :: '\n' :: rest => [] :: splitParas rest
  | c :: rest =>
    match splitParas rest with
    | [] => [[c]]
    | p :: ps => (c :: p) :: ps

/-- Python separator.join, on embedded strings. -/
def joinSep (sep : Str) : List Str → Str
  | [] => []
  | [s] => s
  | s :: t :: rest => s ++ sep ++ joinSep sep (t :: rest)

/-- The paragraph separator: two newlines. -/
def nlnl : Str := ['\n', '\n']

/-- Python str.split with no argument: whitespace-separated words.
First cut on each whitespace character, then drop empty pieces. -/
def splitOnWsChar : Str → List Str
  | [] => [[]]
  | c :: rest =>
    if isPySpace c then [] :: splitOnWsChar rest
    else
      match splitOnWsChar rest with
      | [] => [[c]]
      | w :: ws => (c :: w) :: ws

def pySplitWs (l : Str) : List Str := (splitOnWsChar l).filter (fun w => !w.isEmpty)

/-- Case-insensitive literal prefix test (first argument: the string,
second: the pattern). -/
def startsWithCI : Str → Str → Bool
  | _, [] => true
  | [], _ :: _ => false
  | c :: cs, d :: ds => (c.toLower = d.toLower) && startsWithCI cs ds

/-- The scene-indicator alternative requiring a keyword, one or more
whitespace characters, then a second pattern checked on the remainder. -/
def matchKwWs (kw : Str) (after : Str → Bool) (s : Str) : Bool :=
  startsWithCI s kw &&
    (let rest := s.drop kw.length
     let ws := rest.takeWhile isPySpace
     !ws.isEmpty && after (rest.drop ws.length))

/-- The alternative of one or more letters or whitespace followed by a
colon (the character class is case-insensitive letters plus whitespace). -/
def matchLabelColon (s : Str) : Bool :=
  let pre := s.takeWhile (fun c => c.isAlpha || isPySpace c)
  !pre.isEmpty &&
    (match s.drop pre.length with
     | c :: _ => c = ':'
     | [] => false)

/-- The anchored, case-insensitive scene-indicator regex of
split_script_into_scenes: INT., EXT., SCENE followed by a number, CUT TO:,
FADE IN., FADE OUT., or a run of letters and whitespace ending in a colon. -/
def matchSceneIndicator (s : Str) : Bool :=
  startsWithCI s "INT.".toList ||
  startsWithCI s "EXT.".toList ||
  matchKwWs "SCENE".toList
    (fun r => match r with | c :: _ => c.isDigit | [] => false) s ||
  matchKwWs "CUT".toList (fun r => startsWithCI r "TO:".toList) s ||
  matchKwWs "FADE".toList (fun r => startsWithCI r "IN.".toList) s ||
  matchKwWs "FADE".toList (fun r => startsWithCI r "OUT.".toList) s ||
  matchLabelColon s

/-- First grouping pass of split_script_into_scenes: walk the paragraphs,
flushing the current group when a scene indicator starts a new one. The
middle branch of the source (short paragraph joined to the current group)
and its else branch both append the paragraph, and both are kept. -/
def phase1Go (tok : Str → List Str) (scenes current : List Str) : List Str → List Str
  | [] => if current.isEmpty then scenes else scenes ++ [joinSep nlnl current]
  | p :: ps =>
    if matchSceneIndicator p && !current.isEmpty then
      phase1Go tok (scenes ++ [joinSep nlnl current]) [p] ps
    else if decide ((tok p).length ≤ 2) && decide ((pySplitWs p).length < 15)
        && !current.isEmpty then
      phase1Go tok scenes (current ++ [p]) ps
    else
      phase1Go tok scenes (current ++ [p]) ps

/-- Second pass: merge a short scene (fewer than three sentences, fewer
than fifty words, not the first scene) into a pending buffer that is
flushed before the next long scene. -/
def phase2Go (tok : Str → List Str) (i : Nat) (final : List Str) (temp : Str) :
    List Str → List Str
  | [] => if temp.isEmpty then final else final ++ [temp]
  | scene :: rest =>
    if decide ((tok scene).length < 3) && decide (0 < i)
        && decide ((pySplitWs scene).length < 50) then
      phase2Go tok (i + 1) final
        (if temp.isEmpty then scene else temp ++ nlnl ++ scene) rest
    else
      phase2Go tok (i + 1)
        (if temp.isEmpty then final ++ [scene] else final ++ [temp, scene]) [] rest

/-- Third pass of the source: a loop whose conditional has an empty body
(`pass`), so every scene is copied over unchanged. -/
def phase3 (final : List Str) : List Str :=
  final.foldl (fun acc scene => acc ++ [scene]) []

/-- Normalisation prefix of split_script_into_scenes: normalise line
endings, collapse blank-line runs, strip. -/
def normalizeScript (script_text : Str) : Str :=
  pyStrip (collapseNl (replaceCr (replaceCrLf script_text)))

/-- The paragraph list: split the normalised text on blank lines, strip
each piece, drop empty pieces. -/
def paragraphsOf (script_text : Str) : List Str :=
  ((splitParas (normalizeScript script_text)).map pyStrip).filter (fun p => !p.isEmpty)

/-- ScriptProcessor.split_script_into_scenes, with the NLTK sentence
tokenizer as the oracle `tok`. -/
def split_script_into_scenes (tok : Str → List Str) (script_text : Str) : List Str :=
  if script_text.isEmpty || (pyStrip script_text).isEmpty then []
  else
    let paragraphs := paragraphsOf script_text
    let scenes := phase1Go tok [] [] paragraphs
    let final := phase2Go tok 0 [] [] scenes
    phase3 final

/-! ## Environment of engine oracles

Chatterbox TTS, Stable Diffusion and the moviepy decode layer are external
engines; the environment records their availability, which calls raise, and
the duration the decoder reports for an audio file. -/

/-- A raised Python exception, as far as the claims need to distinguish. -/
inductive PyErr
  | attributeError (typeName attrName : String)
  | runtimeError (msg : String)
deriving DecidableEq

/-- Data written to a file by the pipeline, as far as the claims need to
distinguish between synthesized assets and fallback placeholders. -/
inductive FileData
  | silentWav (durationMs : Nat)
  | synthWav (cleanedText : Str)
  | blackImage (width height : Nat)
  | synthImage (prompt : Str)
deriving DecidableEq

/-- Oracles for the external engines and filesystem facts one run sees.
The boolean pairs mirror the two-part guards of the source (module-level
availability flag, and the instance model handle being loaded). -/
structure Env where
  ttsAvailable : Bool
  ttsModelLoaded : Bool
  ttsGenerateRaises : Str → Bool
  visAvailable : Bool
  visPipelineLoaded : Bool
  visSynthRaises : Str → Bool
  fsExists : String → Bool
  audioDuration : String → ℚ
  mixRaises : Bool
  writeRaises : Bool
  timestamp : String
  segmentOracle : Str → List Str

/-- Output directory constants of app.py / app_cli.py. -/
def GENERATED_AUDIO_DIR : String := "generated_audio"

def GENERATED_IMAGES_DIR : String := "generated_images"

def FINAL_VIDEOS_DIR : String := "final_videos"

def TEMP_DIR : String := "temp_assets"

/-! ## VoiceoverGenerator.generate_voiceover_for_scene
(voiceover_generator.py) -/

/-- Characters removed by the TTS sanitisation regex: asterisk, underscore,
backtick, hash. -/
def isRemovedTtsChar (c : Char) : Bool :=
  c = '*' || c = '_' || c = Char.ofNat 96 || c = '#'

/-- Regex substitution collapsing every whitespace run into one space;
`inRun` records whether the previous character was whitespace. -/
def collapseWsGo (inRun : Bool) : Str → Str
  | [] => []
  | c :: rest =>
    if isPySpace c then (if inRun then [] else [' ']) ++ collapseWsGo true rest
    else c :: collapseWsGo false rest

/-- The sanitisation of generate_voiceover_for_scene: drop the special
characters, collapse whitespace runs to single spaces, strip. -/
def sanitizeTts (s : Str) : Str :=
  pyStrip (collapseWsGo false (s.filter (fun c => !isRemovedTtsChar c)))

/-- The returned audio path together with the one file the call wrote
there (every branch of the source writes exactly one file at the path it
returns). -/
structure VoiceOut where
  path : String
  written : FileData
deriving DecidableEq

/-- VoiceoverGenerator.generate_voiceover_for_scene. The engine-raises
branch models the try block around the synthesis call; the source never
lets the exception reach the caller. -/
def generate_voiceover_for_scene (env : Env) (output_dir : String)
    (scene_text : Str) (scene_index : Nat) : VoiceOut :=
  if !env.ttsAvailable || !env.ttsModelLoaded then
    { path := output_dir ++ "/scene_" ++ toString scene_index ++ "_silent.wav"
      written := .silentWav 2000 }
  else
    let cleaned := sanitizeTts scene_text
    if cleaned.isEmpty then
      { path := output_dir ++ "/scene_" ++ toString scene_index ++ "_silent.wav"
        written := .silentWav 1000 }
    else if env.ttsGenerateRaises cleaned then
      { path := output_dir ++ "/scene_" ++ toString scene_index ++ "_error.wav"
        written := .silentWav 3000 }
    else
      { path := output_dir ++ "/scene_" ++ toString scene_index ++ ".wav"
        written := .synthWav cleaned }

/-! ## VisualGenerator.generate_visual_for_scene (visual_generator.py) -/

/-- The prompt refinement applied before image synthesis. -/
def visualPrompt (scene_text : Str) : Str :=
  "High-quality, cinematic, detailed illustration: ".toList ++ scene_text
    ++ ", a captivating scene, concept art, digital painting.".toList

/-- The returned image reference (the empty string on failure, as in the
source) and the files written. -/
structure VisualOut where
  ret : String
  writes : List (String × FileData)
deriving DecidableEq

/-- VisualGenerator.generate_visual_for_scene. On unavailability or when
the pipeline raises inside the try block, the source returns the empty
string and writes nothing. -/
def generate_visual_for_scene (env : Env) (output_dir : String)
    (scene_text : Str) (scene_index : Nat) : VisualOut :=
  if !env.visAvailable || !env.visPipelineLoaded then
    { ret := "", writes := [] }
  else
    let prompt := visualPrompt scene_text
    let output_filepath := output_dir ++ "/scene_" ++ toString scene_index ++ ".png"
    if env.visSynthRaises prompt then { ret := "", writes := [] }
    else { ret := output_filepath, writes := [(output_filepath, .synthImage prompt)] }

/-! ## VideoAssembler.assemble_video (video_assembler.py)

moviepy clip loading and encoding are external; loading an audio file is a
total operation whose duration comes from the environment oracle, and the
final write raises exactly when the oracle says so. -/

/-- One entry of the scene_data list: a dict whose two keys are read with
get, so either may be absent. -/
structure SceneData where
  image_path : Option String
  audio_path : Option String
deriving DecidableEq

/-- The hard-coded fallback audio file next to the module. -/
def silentWavPath : String := "silent.wav"

/-- The audio path the per-scene branch actually loads: the entry when it
is present, non-empty and on disk, else the module-local silent file. -/
def chosenAudioPath (env : Env) (sd : SceneData) : String :=
  match sd.audio_path with
  | none => silentWavPath
  | some p => if p = "" || !env.fsExists p then silentWavPath else p

/-- The visual source of a per-scene segment: the black colour clip
fallback at the hard-coded resolution, or the image file. -/
inductive ImgSource
  | colorClip (width height : Nat)
  | imageClip (path : String)
deriving DecidableEq

/-- The image source the per-scene branch actually uses. -/
def chosenImage (env : Env) (sd : SceneData) : ImgSource :=
  match sd.image_path with
  | none => .colorClip 1920 1080
  | some p => if p = "" || !env.fsExists p then .colorClip 1920 1080 else .imageClip p

/-- One per-scene segment: an image stretched to the duration of its audio
clip, carrying that audio. -/
structure Clip where
  image : ImgSource
  duration : ℚ
  audioPath : String
deriving DecidableEq

/-- The per-scene segment built by one loop iteration of assemble_video. -/
def buildClip (env : Env) (sd : SceneData) : Clip :=
  let ap := chosenAudioPath env sd
  { image := chosenImage env sd, duration := env.audioDuration ap, audioPath := ap }

/-- The video_clips list assembled by the loop. -/
def buildClips (env : Env) (scene_data : List SceneData) : List Clip :=
  scene_data.map (buildClip env)

/-- Duration of the concatenated timeline: the sum of segment durations. -/
def totalDuration (clips : List Clip) : ℚ := (clips.map Clip.duration).sum

/-- Start time of segment `i` on the concatenated timeline. -/
def clipStart (clips : List Clip) (i : Nat) : ℚ :=
  ((clips.take i).map Clip.duration).sum

/-- How the background track was fitted to the timeline. -/
inductive BgTreatment
  | looped
  | truncated
deriving DecidableEq

/-- The audio of the final video: the voice track alone, or the voice
track with a processed background bed under it. -/
inductive FinalAudioTrack
  | voiceOnly
  | mixed (treatment : BgTreatment) (bgDuration : ℚ) (bgVolume : ℚ)
deriving DecidableEq

/-- The background-music step of assemble_video: skipped when no path is
given, the path is empty or the file is absent; any exception inside the
try block (modelled by the mixRaises oracle) degrades to voice-only; else
the track is looped up to the video duration when shorter and cut to it
otherwise, at a fifth of its volume. -/
def mixBackground (env : Env) (videoDuration : ℚ) (bg : Option String) :
    FinalAudioTrack :=
  match bg with
  | none => .voiceOnly
  | some p =>
    if p ≠ "" ∧ env.fsExists p = true then
      if env.mixRaises then .voiceOnly
      else if env.audioDuration p < videoDuration then
        .mixed .looped videoDuration ((1 : ℚ) / 5)
      else .mixed .truncated videoDuration ((1 : ℚ) / 5)
    else .voiceOnly

/-- What one assemble_video call produced: the per-scene segments, the
final audio selection (absent when the call returned early on an empty
segment list), and the returned path or raised error. -/
structure AssembleResult where
  clips : List Clip
  finalAudio : Option FinalAudioTrack
  result : Except PyErr (Option String)

/-- VideoAssembler.assemble_video. -/
def assemble_video (env : Env) (scene_data : List SceneData)
    (background_music_path : Option String) (output_dir output_filename : String) :
    AssembleResult :=
  let clips := buildClips env scene_data
  if clips.isEmpty then { clips := clips, finalAudio := none, result := .ok none }
  else
    let fa := mixBackground env (totalDuration clips) background_music_path
    { clips := clips
      finalAudio := some fa
      result :=
        if env.writeRaises then .error (.runtimeError "write_videofile failed")
        else .ok (some (output_dir ++ "/" ++ output_filename)) }

/-! ## Orchestrators (app.py backend, app_cli.py)

A run is recorded as the ordered list of its observable events: the Qt
signals the backend emits (progress, status, error, video-generated), the
calls into the two synthesis engines and the assembler, and the files
written. -/

/-- An observable event of one run. -/
inductive Event
  | progress (msg : String) (pct : Nat)
  | statusMsg (msg : String)
  | errorMsg (msg : String)
  | videoGenerated (path : String)
  | audioSynthCall (sceneIndex : Nat)
  | imageSynthCall (sceneIndex : Nat)
  | assembleCall
  | fileWrite (path : String) (data : FileData)
deriving DecidableEq

/-- One collected scene-asset pair, exactly the dict the orchestrators
append per scene. -/
structure SceneAsset where
  image_path : String
  audio_path : String
deriving DecidableEq

/-- The per-scene progress percentage of the backend: the integer part of
the linear interpolation across the scene count inside the middle third,
plus the integer share of the first stage. -/
def scenePct (n i : Nat) : Nat := 100 * i / (3 * n) + 100 / 3

/-- One iteration of the per-scene loop shared by app.py and app_cli.py:
generate the voiceover, substitute a silent temp file if the returned path
were empty (the generator never returns an empty path, but the branch is
in the source), generate the visual, substitute a black 1920 by 1080
placeholder in the temp directory when the returned reference is empty,
and collect the asset pair. Returns the pair and the events of the
iteration in source order. -/
def sceneStep (env : Env) (n i : Nat) (scene_text : Str) : SceneAsset × List Event :=
  let vo := generate_voiceover_for_scene env GENERATED_AUDIO_DIR scene_text i
  let audioFix :=
    if vo.path = "" then
      (TEMP_DIR ++ "/silent_fallback_" ++ toString i ++ ".wav",
       [Event.fileWrite (TEMP_DIR ++ "/silent_fallback_" ++ toString i ++ ".wav")
          (.silentWav 2000)])
    else (vo.path, ([] : List Event))
  let vis := generate_visual_for_scene env GENERATED_IMAGES_DIR scene_text i
  let imageFix :=
    if vis.ret = "" then
      (TEMP_DIR ++ "/black_placeholder_" ++ toString i ++ ".png",
       [Event.fileWrite (TEMP_DIR ++ "/black_placeholder_" ++ toString i ++ ".png")
          (.blackImage 1920 1080)])
    else (vis.ret, ([] : List Event))
  (⟨imageFix.1, audioFix.1⟩,
    [Event.progress
        ("  -- Processing Scene " ++ toString (i + 1) ++ "/" ++ toString n ++ " --")
        (scenePct n i),
      Event.audioSynthCall i, Event.fileWrite vo.path vo.written]
      ++ audioFix.2
      ++ [Event.statusMsg
            ("  Voiceover for scene " ++ toString (i + 1) ++ " saved to: " ++ audioFix.1),
          Event.imageSynthCall i]
      ++ vis.writes.map (fun w => Event.fileWrite w.1 w.2)
      ++ imageFix.2
      ++ [Event.statusMsg
            ("  Visual for scene " ++ toString (i + 1) ++ " saved to: " ++ imageFix.1)])

/-- The scene loop: one sceneStep per scene, assets and events in order.
`n` is the total scene count, `i` the index of the first remaining scene. -/
def processScenesGo (env : Env) (n : Nat) : Nat → List Str → List SceneAsset × List Event
  | _, [] => ([], [])
  | i, s :: rest =>
    let step := sceneStep env n i s
    let restOut := processScenesGo env n (i + 1) rest
    (step.1 :: restOut.1, step.2 ++ restOut.2)

/-- The outcome of one backend run. -/
structure RunOut where
  sceneAssets : List SceneAsset
  events : List Event
  result : Option String

/-- The scene_data list handed to the assembler. -/
def toSceneData (assets : List SceneAsset) : List SceneData :=
  assets.map (fun a => { image_path := some a.image_path, audio_path := some a.audio_path })

/-- The timestamp-qualified output file name of a run. -/
def outputVideoFilename (env : Env) : String :=
  "faceless_video_" ++ env.timestamp ++ ".mp4"

/-- The backend pipeline of app.py from the point where the segmentation
result is in hand (the list `scenes` stands for processed_scenes): abort
with an error on zero scenes, otherwise run the per-scene loop, assemble,
and emit the final signals; an exception raised by assembly is absorbed by
the catch-all handler, which emits an error and a progress reset to zero.
Modelled from the spec at one point: ScriptProcessor.process_script does
not exist in the source, so the segmentation result is a parameter here. -/
def guiRunFromScenes (env : Env) (scenes : List Str) (bg : Option String) : RunOut :=
  let ev0 := [Event.statusMsg "--- Starting Video Generation Process ---",
              Event.progress "1. Processing script into scenes..." 0]
  if scenes.isEmpty then
    { sceneAssets := []
      events := ev0 ++
        [Event.errorMsg "No scenes processed from the script. Aborting video generation."]
      result := none }
  else
    let n := scenes.length
    let ev1 := [Event.statusMsg ("Script processed into " ++ toString n ++ " scenes."),
                Event.progress ("Script processed into " ++ toString n ++ " scenes.") (100 / 3),
                Event.statusMsg "2. Generating voiceovers and visuals for each scene..."]
    let ps := processScenesGo env n 0 scenes
    let ev2 := [Event.progress "Finished generating all scene assets." (200 / 3),
                Event.statusMsg "3. Assembling the final video...",
                Event.progress "3. Assembling the final video..." (200 / 3 + 10)]
    let ar := assemble_video env (toSceneData ps.1) bg FINAL_VIDEOS_DIR (outputVideoFilename env)
    match ar.result with
    | .error _ =>
      { sceneAssets := ps.1
        events := ev0 ++ ev1 ++ ps.2 ++ ev2 ++
          [Event.assembleCall,
           Event.errorMsg "An unexpected error occurred during video generation.",
           Event.progress "Error during generation." 0]
        result := none }
    | .ok pathOpt =>
      let ev3 :=
        match pathOpt with
        | some p => [Event.statusMsg "--- Video Generation Complete! ---",
                     Event.statusMsg ("Final video saved to: " ++ p),
                     Event.videoGenerated p]
        | none => [Event.errorMsg "--- Video Generation Failed ---"]
      { sceneAssets := ps.1
        events := ev0 ++ ev1 ++ ps.2 ++ ev2 ++ [Event.assembleCall] ++ ev3 ++
          [Event.statusMsg "Total processing time reported.",
           Event.progress "Video generation complete!" 100]
        result := pathOpt }

/-- The methods the ScriptProcessor class body defines, besides its
constructor. -/
def scriptProcessorMethods : List String :=
  ["split_script_into_scenes", "analyze_scene_with_gemini"]

/-- Whether the attribute lookup for process_script on a ScriptProcessor
instance succeeds. -/
def hasProcessScript : Bool := scriptProcessorMethods.contains "process_script"

/-- FacelessVideoAppBackend.generate_video_from_script (app.py): the whole
body runs inside a try block, so the AttributeError raised by the
process_script lookup is absorbed into the catch-all branch, which emits
an error signal and a progress reset and returns None. -/
def guiGenerate (env : Env) (raw_script : Str) (bg : Option String) : RunOut :=
  if hasProcessScript then guiRunFromScenes env (env.segmentOracle raw_script) bg
  else
    { sceneAssets := []
      events := [Event.statusMsg "--- Starting Video Generation Process ---",
                 Event.progress "1. Processing script into scenes..." 0,
                 Event.errorMsg "An unexpected error occurred during video generation.",
                 Event.progress "Error during generation." 0]
      result := none }

/-- The CLI pipeline of app_cli.py from the segmentation result onward;
with no try block, an assembly error propagates. -/
def cliRunFromScenes (env : Env) (scenes : List Str) (bg : Option String) :
    Except PyErr (Option String) × List Event :=
  if scenes.isEmpty then (.ok none, [])
  else
    let ps := processScenesGo env scenes.length 0 scenes
    let ar := assemble_video env (toSceneData ps.1) bg FINAL_VIDEOS_DIR (outputVideoFilename env)
    match ar.result with
    | .error e => (.error e, ps.2 ++ [Event.assembleCall])
    | .ok pathOpt => (.ok pathOpt, ps.2 ++ [Event.assembleCall])

/-- FacelessVideoApp.generate_video_from_script (app_cli.py): the call to
process_script is the first pipeline step and has no surrounding handler,
so the AttributeError propagates to the caller before anything else runs. -/
def cliGenerate (env : Env) (raw_script : Str) (bg : Option String) :
    Except PyErr (Option String) × List Event :=
  if hasProcessScript then cliRunFromScenes env (env.segmentOracle raw_script) bg
  else (.error (.attributeError "ScriptProcessor" "process_script"), [])

/-- The percentages carried by the progress events, in emission order. -/
def progressValues (events : List Event) : List Nat :=
  events.filterMap (fun e => match e with | .progress _ p => some p | _ => none)

/-- The synthesis and assembly calls among the events. -/
def pipelineCallEvents (events : List Event) : List Event :=
  events.filter (fun e =>
    match e with
    | .audioSynthCall _ => true
    | .imageSynthCall _ => true
    | .assembleCall => true
    | _ => false)

/-! ## Concrete environments for witnesses and counterexamples -/

/-- A fully available environment with benign oracles. -/
def envAllOk : Env :=
  { ttsAvailable := true, ttsModelLoaded := true, ttsGenerateRaises := fun _ => false
    visAvailable := true, visPipelineLoaded := true, visSynthRaises := fun _ => false
    fsExists := fun _ => true, audioDuration := fun _ => 2
    mixRaises := false, writeRaises := false, timestamp := "20250101_000000"
    segmentOracle := fun _ => [] }

/-- envAllOk with the TTS engine unavailable. -/
def envNoTts : Env := { envAllOk with ttsAvailable := false }

/-- envAllOk with the visual engine unavailable. -/
def envNoVis : Env := { envAllOk with visAvailable := false }

/-- envAllOk with a failure raised by the final video write. -/
def envWriteFails : Env := { envAllOk with writeRaises := true }

/-! ## Helper lemmas about assemble_video -/

lemma assemble_clips (env : Env) (data : List SceneData) (bg : Option String)
    (dir name : String) :
    (assemble_video env data bg dir name).clips = buildClips env data := by
  simp only [assemble_video]
  split <;> rfl

lemma buildClips_isEmpty_false (env : Env) {data : List SceneData} (h : data ≠ []) :
    (buildClips env data).isEmpty = false := by
  cases data with
  | nil => exact absurd rfl h
  | cons a t => rfl

lemma assemble_result_ok (env : Env) (data : List SceneData) (bg : Option String)
    (dir name : String) (h : data ≠ []) (hw : env.writeRaises = false) :
    (assemble_video env data bg dir name).result = .ok (some (dir ++ "/" ++ name)) := by
  simp only [assemble_video, buildClips_isEmpty_false env h, hw]
  rfl

lemma assemble_result_error (env : Env) (data : List SceneData) (bg : Option String)
    (dir name : String) (h : data ≠ []) (hw : env.writeRaises = true) :
    (assemble_video env data bg dir name).result =
      .error (.runtimeError "write_videofile failed") := by
  simp only [assemble_video, buildClips_isEmpty_false env h, hw]
  rfl

lemma assemble_finalAudio (env : Env) (data : List SceneData) (bg : Option String)
    (dir name : String) (h : data ≠ []) :
    (assemble_video env data bg dir name).finalAudio =
      some (mixBackground env (totalDuration (buildClips env data)) bg) := by
  simp only [assemble_video, buildClips_isEmpty_false env h]
  rfl

lemma clipStart_succ (clips : List Clip) (i : Nat) (c : Clip)
    (hc : clips[i]? = some c) :
    clipStart clips (i + 1) = clipStart clips i + c.duration := by
  unfold clipStart
  rw [List.take_succ, hc]
  simp

/-! ## The claims -/

/-- C1: generate_video_from_script invokes process_script, which
ScriptProcessor does not define (it defines only split_script_into_scenes
and analyze_scene_with_gemini), so every run raises an AttributeError at
the segmentation step, before any audio or image synthesis call and before
assembly; the CLI orchestrator propagates it, the GUI backend absorbs it
into the catch-all branch and returns None. -/
theorem missing_process_script_aborts_run (env : Env) (script : Str) (bg : Option String) :
    (cliGenerate env script bg).1 =
      .error (.attributeError "ScriptProcessor" "process_script") ∧
    (cliGenerate env script bg).2 = [] ∧
    (guiGenerate env script bg).result = none ∧
    pipelineCallEvents (guiGenerate env script bg).events = [] ∧
    (guiGenerate env script bg).events.getLast? =
      some (Event.progress "Error during generation." 0) :=
  ⟨rfl, rfl, rfl, rfl, rfl⟩

/-- C3: generate_voiceover_for_scene always returns a usable audio path
and never raises: silence of 2000 ms when the engine is unavailable,
silence of 1000 ms when the text sanitises to empty, silence of 3000 ms
when synthesis raises, and the synthesized file otherwise. -/
theorem voiceover_never_fails (env : Env) (dir : String) (text : Str) (i : Nat) :
    ((env.ttsAvailable = false ∨ env.ttsModelLoaded = false) →
      generate_voiceover_for_scene env dir text i =
        { path := dir ++ "/scene_" ++ toString i ++ "_silent.wav"
          written := .silentWav 2000 }) ∧
    (env.ttsAvailable = true → env.ttsModelLoaded = true → sanitizeTts text = [] →
      generate_voiceover_for_scene env dir text i =
        { path := dir ++ "/scene_" ++ toString i ++ "_silent.wav"
          written := .silentWav 1000 }) ∧
    (env.ttsAvailable = true → env.ttsModelLoaded = true → sanitizeTts text ≠ [] →
      env.ttsGenerateRaises (sanitizeTts text) = true →
      generate_voiceover_for_scene env dir text i =
        { path := dir ++ "/scene_" ++ toString i ++ "_error.wav"
          written := .silentWav 3000 }) ∧
    (env.ttsAvailable = true → env.ttsModelLoaded = true → sanitizeTts text ≠ [] →
      env.ttsGenerateRaises (sanitizeTts text) = false →
      generate_voiceover_for_scene env dir text i =
        { path := dir ++ "/scene_" ++ toString i ++ ".wav"
          written := .synthWav (sanitizeTts text) }) := by
  refine ⟨?_, ?_, ?_, ?_⟩
  · rintro (h | h) <;> simp [generate_voiceover_for_scene, h]
  · intro h1 h2 h3
    simp [generate_voiceover_for_scene, h1, h2, h3]
  · intro h1 h2 h3 h4
    simp [generate_voiceover_for_scene, h1, h2, List.isEmpty_eq_false.mpr h3, h4]
  · intro h1 h2 h3 h4
    simp [generate_voiceover_for_scene, h1, h2, List.isEmpty_eq_false.mpr h3, h4]

/-- Witness for voiceover_never_fails: unavailable engine, concrete call. -/
theorem voiceover_never_fails_witness :
    generate_voiceover_for_scene envNoTts "generated_audio" "Hello".toList 0 =
      { path := "generated_audio" ++ "/scene_" ++ toString 0 ++ "_silent.wav"
        written := .silentWav 2000 } :=
  (voiceover_never_fails envNoTts "generated_audio" "Hello".toList 0).1 (Or.inl rfl)

/-- C4 as stated: under engine unavailability or synthesis failure,
generate_visual_for_scene itself yields a reference to a 1920 by 1080
placeholder frame that it wrote. -/
def visualSelfPlaceholderClaim (env : Env) (dir : String) (text : Str) (i : Nat) : Prop :=
  (env.visAvailable = false ∨ env.visPipelineLoaded = false ∨
      env.visSynthRaises (visualPrompt text) = true) →
    (generate_visual_for_scene env dir text i).ret ≠ "" ∧
    ∃ w ∈ (generate_visual_for_scene env dir text i).writes,
      w.1 = (generate_visual_for_scene env dir text i).ret ∧
      w.2 = FileData.blackImage 1920 1080

/-- C4 counterexample: with the visual engine unavailable the function
returns the empty reference and writes no placeholder at all. -/
theorem visual_placeholder_counterexample :
    ¬ visualSelfPlaceholderClaim envNoVis GENERATED_IMAGES_DIR "storm".toList 0 := by
  intro h
  exact (h (Or.inl rfl)).1 rfl

/-- C4 amended: on unavailability or synthesis failure the generator
returns the empty reference and writes nothing, never raising; the
orchestrator per-scene step then substitutes a black 1920 by 1080
placeholder frame that it writes into the temp directory, so the per-scene
image step as a whole yields a placeholder. -/
theorem visual_fallback_amended (env : Env) (text : Str) (n i : Nat)
    (h : env.visAvailable = false ∨ env.visPipelineLoaded = false ∨
      env.visSynthRaises (visualPrompt text) = true) :
    (generate_visual_for_scene env GENERATED_IMAGES_DIR text i).ret = "" ∧
    (generate_visual_for_scene env GENERATED_IMAGES_DIR text i).writes = [] ∧
    (sceneStep env n i text).1.image_path =
      TEMP_DIR ++ "/black_placeholder_" ++ toString i ++ ".png" ∧
    Event.fileWrite (TEMP_DIR ++ "/black_placeholder_" ++ toString i ++ ".png")
        (FileData.blackImage 1920 1080) ∈ (sceneStep env n i text).2 := by
  have hv : generate_visual_for_scene env GENERATED_IMAGES_DIR text i =
      { ret := "", writes := [] } := by
    rcases h with h | h | h
    · simp [generate_visual_for_scene, h]
    · simp [generate_visual_for_scene, h]
    · unfold generate_visual_for_scene
      split
      · rfl
      · simp [h]
  refine ⟨by rw [hv], by rw [hv], ?_, ?_⟩
  · simp [sceneStep, hv]
  · simp [sceneStep, hv]

/-- Witness for visual_fallback_amended. -/
theorem visual_fallback_amended_witness :
    (sceneStep envNoVis 1 0 "storm".toList).1.image_path =
      TEMP_DIR ++ "/black_placeholder_" ++ toString 0 ++ ".png" :=
  (visual_fallback_amended envNoVis "storm".toList 1 0 (Or.inl rfl)).2.2.1

/-- C5: assemble_video returns None exactly when the scene list is empty;
every entry, even with missing paths, yields one segment; a non-empty list
returns the artifact path unless the write step raises, in which case the
error propagates. -/
theorem assemble_none_iff_empty (env : Env) (data : List SceneData)
    (bg : Option String) (dir name : String) :
    ((assemble_video env data bg dir name).result = .ok none ↔ data = []) ∧
    (assemble_video env data bg dir name).clips.length = data.length ∧
    (data ≠ [] → env.writeRaises = false →
      (assemble_video env data bg dir name).result = .ok (some (dir ++ "/" ++ name))) ∧
    (data ≠ [] → env.writeRaises = true →
      (assemble_video env data bg dir name).result =
        .error (.runtimeError "write_videofile failed")) := by
  refine ⟨⟨?_, ?_⟩, ?_, ?_, ?_⟩
  · intro hres
    by_contra hne
    cases hwr : env.writeRaises with
    | true => rw [assemble_result_error env data bg dir name hne hwr] at hres; simp at hres
    | false => rw [assemble_result_ok env data bg dir name hne hwr] at hres; simp at hres
  · intro hd
    subst hd
    rfl
  · rw [assemble_clips]
    simp [buildClips]
  · exact assemble_result_ok env data bg dir name
  · exact assemble_result_error env data bg dir name

/-- Witness for assemble_none_iff_empty: one concrete entry, no failure. -/
theorem assemble_none_iff_empty_witness :
    (assemble_video envAllOk [{ image_path := some "img.png", audio_path := some "a.wav" }]
        none "final_videos" "out.mp4").result =
      .ok (some ("final_videos" ++ "/" ++ "out.mp4")) :=
  (assemble_none_iff_empty envAllOk
      [{ image_path := some "img.png", audio_path := some "a.wav" }]
      none "final_videos" "out.mp4").2.2.1 (by simp) rfl

/-- C6: each per-scene segment lasts exactly as long as its paired audio
clip, consecutive segments abut with no gap or overlap on the concatenated
timeline, and the total duration is the sum of the per-scene audio
durations. -/
theorem assemble_durations (env : Env) (data : List SceneData)
    (bg : Option String) (dir name : String) (h : data ≠ []) :
    (∀ i : Nat, ((assemble_video env data bg dir name).clips[i]?).map Clip.duration =
      (data[i]?).map (fun sd => env.audioDuration (chosenAudioPath env sd))) ∧
    (∀ (i : Nat) (c : Clip), (assemble_video env data bg dir name).clips[i]? = some c →
      clipStart (assemble_video env data bg dir name).clips (i + 1) =
        clipStart (assemble_video env data bg dir name).clips i + c.duration) ∧
    totalDuration (assemble_video env data bg dir name).clips =
      (data.map (fun sd => env.audioDuration (chosenAudioPath env sd))).sum := by
  refine ⟨?_, ?_, ?_⟩
  · intro i
    rw [assemble_clips]
    show ((data.map (buildClip env))[i]?).map Clip.duration = _
    rw [List.getElem?_map]
    cases data[i]? <;> rfl
  · intro i c hc
    exact clipStart_succ _ i c hc
  · rw [assemble_clips]
    unfold totalDuration buildClips
    rw [List.map_map]
    rfl

/-- Witness for assemble_durations at a concrete list. -/
theorem assemble_durations_witness :
    totalDuration (assemble_video envAllOk
        [{ image_path := some "img.png", audio_path := some "a.wav" },
         { image_path := none, audio_path := none }]
        none "final_videos" "out.mp4").clips =
      ([{ image_path := some "img.png", audio_path := some "a.wav" },
        { image_path := none, audio_path := none }].map
          (fun sd => envAllOk.audioDuration (chosenAudioPath envAllOk sd))).sum :=
  (assemble_durations envAllOk _ none "final_videos" "out.mp4" (by simp)).2.2

/-- C7: the background-music policy of assemble_video: skipped entirely
when the supplied path does not exist; degraded to voice-only on any
mixing failure; otherwise the track is looped up to the timeline duration
when shorter, truncated to it when not, and mixed at one fifth of its
volume. -/
theorem background_mix_policy (env : Env) (data : List SceneData) (p : String)
    (dir name : String) (h : data ≠ []) (hp : p ≠ "") :
    (env.fsExists p = false →
      (assemble_video env data (some p) dir name).finalAudio = some .voiceOnly) ∧
    (env.fsExists p = true → env.mixRaises = true →
      (assemble_video env data (some p) dir name).finalAudio = some .voiceOnly) ∧
    (env.fsExists p = true → env.mixRaises = false →
      env.audioDuration p < totalDuration (assemble_video env data (some p) dir name).clips →
      (assemble_video env data (some p) dir name).finalAudio =
        some (.mixed .looped
          (totalDuration (assemble_video env data (some p) dir name).clips) ((1 : ℚ) / 5))) ∧
    (env.fsExists p = true → env.mixRaises = false →
      ¬ env.audioDuration p <
          totalDuration (assemble_video env data (some p) dir name).clips →
      (assemble_video env data (some p) dir name).finalAudio =
        some (.mixed .truncated
          (totalDuration (assemble_video env data (some p) dir name).clips) ((1 : ℚ) / 5))) := by
  rw [assemble_finalAudio env data (some p) dir name h, assemble_clips]
  refine ⟨?_, ?_, ?_, ?_⟩
  · intro hfs
    simp [mixBackground, hfs]
  · intro hfs hmr
    simp [mixBackground, hp, hfs, hmr]
  · intro hfs hmr hlt
    simp [mixBackground, hp, hfs, hmr, hlt]
  · intro hfs hmr hlt
    simp [mixBackground, hp, hfs, hmr, hlt]

/-- Witness for background_mix_policy: an existing short track is looped. -/
theorem background_mix_policy_witness :
    (assemble_video envAllOk
        [{ image_path := some "img.png", audio_path := some "a.wav" },
         { image_path := some "i2.png", audio_path := some "b.wav" }]
        (some "bgm.mp3") "final_videos" "out.mp4").finalAudio =
      some (.mixed .looped
        (totalDuration (assemble_video envAllOk
          [{ image_path := some "img.png", audio_path := some "a.wav" },
           { image_path := some "i2.png", audio_path := some "b.wav" }]
          (some "bgm.mp3") "final_videos" "out.mp4").clips) ((1 : ℚ) / 5)) :=
  (background_mix_policy envAllOk
      [{ image_path := some "img.png", audio_path := some "a.wav" },
       { image_path := some "i2.png", audio_path := some "b.wav" }]
      "bgm.mp3" "final_videos" "out.mp4" (by simp) (by simp)).2.2.1 rfl rfl (by
        rw [assemble_clips]
        show (2 : ℚ) < totalDuration (buildClips envAllOk _)
        simp [totalDuration, buildClips, buildClip, envAllOk])

/-- C9 as stated: the output file location of each per-scene synthesis
call is determined by the scene index alone, so any two calls at the same
index write to the same path. -/
def outputPathIndexOnlyClaim : Prop :=
  (∀ env : Env, ∀ dir : String, ∀ t1 t2 : Str, ∀ i : Nat,
    (generate_voiceover_for_scene env dir t1 i).path =
      (generate_voiceover_for_scene env dir t2 i).path) ∧
  (∀ env : Env, ∀ dir : String, ∀ t1 t2 : Str, ∀ i : Nat,
    (generate_visual_for_scene env dir t1 i).ret =
      (generate_visual_for_scene env dir t2 i).ret)

/-- C9 counterexample: at the same index 0 with the same available engine,
a synthesizable text returns scene_0.wav while a text that sanitises to
nothing returns scene_0_silent.wav: the location also depends on the
outcome tier. -/
theorem output_path_counterexample : ¬ outputPathIndexOnlyClaim := by
  intro h
  have := h.1 envAllOk "generated_audio" "Hello".toList "#".toList 0
  exact absurd this (by decide)

/-- C9 amended: each output location is determined by the scene index
together with the outcome tier: the audio path is always one of the three
index-stamped names (success, silent fallback, error fallback), the image
reference is empty or the one index-stamped image name, and every image
write lands at that name; hence re-running the same call with the same
inputs overwrites the asset at that index instead of creating a new one. -/
theorem output_path_per_index (env : Env) (dir : String) (t : Str) (i : Nat) :
    ((generate_voiceover_for_scene env dir t i).path ∈
      [dir ++ "/scene_" ++ toString i ++ ".wav",
       dir ++ "/scene_" ++ toString i ++ "_silent.wav",
       dir ++ "/scene_" ++ toString i ++ "_error.wav"]) ∧
    ((generate_visual_for_scene env dir t i).ret = "" ∨
      (generate_visual_for_scene env dir t i).ret =
        dir ++ "/scene_" ++ toString i ++ ".png") ∧
    (∀ w ∈ (generate_visual_for_scene env dir t i).writes,
      w.1 = dir ++ "/scene_" ++ toString i ++ ".png") := by
  refine ⟨?_, ?_, ?_⟩
  · simp only [generate_voiceover_for_scene]
    split
    · simp
    · split
      · simp
      · split <;> simp
  · simp only [generate_visual_for_scene]
    split
    · simp
    · split <;> simp
  · simp only [generate_visual_for_scene]
    split
    · simp
    · split <;> simp

/-! ## Lemmas about the scene loop and the emitted progress values -/

lemma processScenesGo_length (env : Env) (n : Nat) :
    ∀ (i : Nat) (scenes : List Str),
      (processScenesGo env n i scenes).1.length = scenes.length := by
  intro i scenes
  induction scenes generalizing i with
  | nil => rfl
  | cons s rest ih => simp [processScenesGo, ih]

lemma processScenesGo_getElem (env : Env) (n : Nat) :
    ∀ (scenes : List Str) (i j : Nat),
      (processScenesGo env n i scenes).1[j]? =
        (scenes[j]?).map (fun s => (sceneStep env n (i + j) s).1) := by
  intro scenes
  induction scenes with
  | nil => intro i j; rfl
  | cons s rest ih =>
    intro i j
    cases j with
    | zero => simp [processScenesGo]
    | succ j =>
      have hadd : i + (j + 1) = (i + 1) + j := by omega
      simp [processScenesGo, ih (i + 1) j, hadd]

lemma guiRunFromScenes_sceneAssets (env : Env) (scenes : List Str) (bg : Option String)
    (h : scenes ≠ []) :
    (guiRunFromScenes env scenes bg).sceneAssets =
      (processScenesGo env scenes.length 0 scenes).1 := by
  have hne : scenes.isEmpty = false := by
    cases scenes with
    | nil => exact absurd rfl h
    | cons a t => rfl
  simp only [guiRunFromScenes, hne, Bool.false_eq_true, if_false]
  split
  · rfl
  · rfl

/-- C2: whenever segmentation yields at least one scene, the backend
produces exactly one scene-asset pair per scene, in scene order: the entry
at position j is the pair computed from scene j at index j, whatever the
engine oracles do. (process_script is absent from the source, so the
segmentation result enters as the scene-list parameter; see C1.) -/
theorem scene_assets_complete (env : Env) (scenes : List Str) (bg : Option String)
    (h : 1 ≤ scenes.length) :
    (guiRunFromScenes env scenes bg).sceneAssets.length = scenes.length ∧
    ∀ j : Nat, (guiRunFromScenes env scenes bg).sceneAssets[j]? =
      (scenes[j]?).map (fun s => (sceneStep env scenes.length j s).1) := by
  have hne : scenes ≠ [] := by
    cases scenes with
    | nil => simp at h
    | cons a t => simp
  rw [guiRunFromScenes_sceneAssets env scenes bg hne]
  refine ⟨processScenesGo_length env _ 0 scenes, ?_⟩
  intro j
  rw [processScenesGo_getElem env _ scenes 0 j]
  simp

/-- Witness for scene_assets_complete. -/
theorem scene_assets_complete_witness :
    (guiRunFromScenes envAllOk ["Hello".toList] none).sceneAssets.length = 1 :=
  (scene_assets_complete envAllOk ["Hello".toList] none (by simp)).1

lemma progressValues_append (a b : List Event) :
    progressValues (a ++ b) = progressValues a ++ progressValues b := by
  unfold progressValues
  exact List.filterMap_append a b _

lemma sceneStep_progressValues (env : Env) (n i : Nat) (s : Str) :
    progressValues (sceneStep env n i s).2 = [scenePct n i] := by
  unfold sceneStep
  by_cases h1 : (generate_voiceover_for_scene env GENERATED_AUDIO_DIR s i).path = "" <;>
    by_cases h2 : (generate_visual_for_scene env GENERATED_IMAGES_DIR s i).ret = "" <;>
      simp [h1, h2, progressValues, List.filterMap_append]

lemma processScenesGo_progressValues (env : Env) (n : Nat) :
    ∀ (scenes : List Str) (i : Nat),
      progressValues (processScenesGo env n i scenes).2 =
        (List.range' i scenes.length).map (scenePct n) := by
  intro scenes
  induction scenes with
  | nil => intro i; rfl
  | cons s rest ih =>
    intro i
    show progressValues ((sceneStep env n i s).2 ++ (processScenesGo env n (i + 1) rest).2) = _
    rw [progressValues_append, sceneStep_progressValues, ih (i + 1)]
    rfl

/-- The progress percentages a write-failure-free run emits, in closed
form; the list shape puts the completion value last. -/
lemma guiRun_progress_ok (env : Env) (scenes : List Str) (bg : Option String)
    (h : scenes ≠ []) (hw : env.writeRaises = false) :
    progressValues (guiRunFromScenes env scenes bg).events =
      (0 :: (100 / 3) :: ((List.range' 0 scenes.length).map (scenePct scenes.length)
        ++ [200 / 3, 200 / 3 + 10])) ++ [100] := by
  have hne : scenes.isEmpty = false := by
    cases scenes with
    | nil => exact absurd rfl h
    | cons a t => rfl
  have hdata : toSceneData (processScenesGo env scenes.length 0 scenes).1 ≠ [] := by
    unfold toSceneData
    cases hs : (processScenesGo env scenes.length 0 scenes).1 with
    | nil =>
      have := processScenesGo_length env scenes.length 0 scenes
      rw [hs] at this
      cases scenes with
      | nil => exact absurd rfl h
      | cons a t => simp at this
    | cons a t => simp
  have hres := assemble_result_ok env (toSceneData (processScenesGo env scenes.length 0 scenes).1)
    bg FINAL_VIDEOS_DIR (outputVideoFilename env) hdata hw
  simp only [guiRunFromScenes, hne, Bool.false_eq_true, if_false, hres]
  simp only [progressValues_append]
  rw [processScenesGo_progressValues env scenes.length scenes 0]
  simp [progressValues]

/-- C10 as stated: in every run the emitted progress percentages are
monotonically non-decreasing, and a completed run ends at 100. -/
def progressMonotoneClaim : Prop :=
  ∀ (env : Env) (scenes : List Str) (bg : Option String),
    List.Chain' (fun a b => a ≤ b)
      (progressValues (guiRunFromScenes env scenes bg).events) ∧
    ((guiRunFromScenes env scenes bg).result.isSome = true →
      (progressValues (guiRunFromScenes env scenes bg).events).getLast? = some 100)

/-- C10 counterexample: when the final write raises, the catch-all
handler emits a progress reset to zero after 76 percent, so the emitted
sequence of that run is not monotonically non-decreasing. -/
theorem progress_counterexample : ¬ progressMonotoneClaim := by
  intro h
  have hc := (h envWriteFails ["Hello".toList] none).1
  have he : progressValues (guiRunFromScenes envWriteFails ["Hello".toList] none).events
      = [0, 33, 33, 66, 76, 0] := by rfl
  rw [he] at hc
  simp [List.chain'_cons] at hc

lemma mem_of_mem_getLast? {A : Type} {l : List A} {x : A} (hx : x ∈ l.getLast?) :
    x ∈ l := by
  rcases List.mem_getLast?_eq_getLast hx with ⟨hne2, rfl⟩
  exact List.getLast_mem hne2

lemma scenePct_mono (n : Nat) : ∀ j, scenePct n j ≤ scenePct n (j + 1) := by
  intro j
  unfold scenePct
  have h : 100 * j ≤ 100 * (j + 1) := by omega
  exact Nat.add_le_add_right (Nat.div_le_div_right h) _

lemma scenePct_le (n : Nat) (j : Nat) (hj : j < n) : scenePct n j ≤ 200 / 3 := by
  unfold scenePct
  have h1 : 100 * j / (3 * n) < 34 := by
    rw [Nat.div_lt_iff_lt_mul (by omega : 0 < 3 * n)]
    omega
  have e1 : (100 : Nat) / 3 = 33 := rfl
  have e2 : (200 : Nat) / 3 = 66 := rfl
  rw [e1, e2]
  omega

lemma chain_le_map_range' (f : Nat → Nat) (hf : ∀ j, f j ≤ f (j + 1)) :
    ∀ (n s : Nat), List.Chain' (fun a b => a ≤ b) ((List.range' s n).map f) := by
  intro n
  induction n with
  | zero => intro s; simp
  | succ m ih =>
    intro s
    cases m with
    | zero => simp
    | succ k =>
      have hshape : (List.range' s (k + 1 + 1)).map f
          = f s :: (List.range' (s + 1) (k + 1)).map f := rfl
      rw [hshape, List.chain'_cons']
      refine ⟨?_, ih (s + 1)⟩
      intro b hb
      have hhead : ((List.range' (s + 1) (k + 1)).map f).head? = some (f (s + 1)) := rfl
      rw [hhead, Option.mem_some_iff] at hb
      rw [← hb]
      exact hf s

/-- C10 amended: in every run that does not enter the catch-all exception
branch (the modelled in-run exception is a write failure at assembly), the
emitted progress percentages are monotonically non-decreasing and the run
ends with a final emitted value of 100; a run that enters the branch ends
with a reset value of 0 instead. -/
theorem progress_monotone_no_exception (env : Env) (scenes : List Str)
    (bg : Option String) (h : scenes ≠ []) (hw : env.writeRaises = false) :
    List.Chain' (fun a b => a ≤ b)
      (progressValues (guiRunFromScenes env scenes bg).events) ∧
    (progressValues (guiRunFromScenes env scenes bg).events).getLast? = some 100 := by
  rw [guiRun_progress_ok env scenes bg h hw]
  have hn : 1 ≤ scenes.length := by
    cases scenes with
    | nil => exact absurd rfl h
    | cons a t => simp
  constructor
  · rw [List.chain'_append]
    refine ⟨?_, by simp, ?_⟩
    · rw [List.chain'_cons']
      constructor
      · intro b hb
        simp at hb
        omega
      · rw [List.chain'_cons']
        constructor
        · intro b hb
          rcases scenes with _ | ⟨a, t⟩
          · exact absurd rfl h
          · have hshape : (List.range' 0 (a :: t).length).map (scenePct (a :: t).length)
                = scenePct (a :: t).length 0
                  :: (List.range' 1 t.length).map (scenePct (a :: t).length) := rfl
            rw [hshape] at hb
            simp at hb
            rw [← hb]
            simp [scenePct]
        · rw [List.chain'_append]
          refine ⟨chain_le_map_range' _ (scenePct_mono scenes.length) _ _, by simp, ?_⟩
          intro x hx y hy
          simp at hy
          rw [← hy]
          have hxmem : x ∈ (List.range' 0 scenes.length).map (scenePct scenes.length) :=
            mem_of_mem_getLast? hx
          rcases List.mem_map.mp hxmem with ⟨j, hj, rfl⟩
          have hjlt : j < scenes.length := by
            rcases List.mem_range'_1.mp hj with ⟨-, hlt⟩
            simpa using hlt
          exact scenePct_le scenes.length j hjlt
    · intro x hx y hy
      simp at hy
      rw [← hy]
      have hxmem : x ∈ 0 :: (100 / 3)
          :: ((List.range' 0 scenes.length).map (scenePct scenes.length)
            ++ [200 / 3, 200 / 3 + 10]) := mem_of_mem_getLast? hx
      simp at hxmem
      rcases hxmem with h0 | h0 | h0 | h0 | h0
      · omega
      · omega
      · rcases h0 with ⟨j, hjlt, rfl⟩
        have := scenePct_le scenes.length j hjlt
        omega
      · omega
      · omega
  · rw [List.getLast?_concat]

/-- Witness for progress_monotone_no_exception. -/
theorem progress_monotone_witness :
    (progressValues (guiRunFromScenes envAllOk ["Hello".toList] none).events).getLast? =
      some 100 :=
  (progress_monotone_no_exception envAllOk ["Hello".toList] none (by simp) rfl).2

/-! ## Lemmas about joinSep and the segmentation passes -/

lemma joinSep_singleton (sep s : Str) : joinSep sep [s] = s := rfl

lemma joinSep_append (sep : Str) :
    ∀ (l1 l2 : List Str), l1 ≠ [] → l2 ≠ [] →
      joinSep sep (l1 ++ l2) = joinSep sep l1 ++ sep ++ joinSep sep l2 := by
  intro l1
  induction l1 with
  | nil => intro l2 h1 h2; exact absurd rfl h1
  | cons s t ih =>
    intro l2 h1 h2
    cases t with
    | nil =>
      cases l2 with
      | nil => exact absurd rfl h2
      | cons u v => rfl
    | cons a b =>
      have e1 : (s :: a :: b) ++ l2 = s :: ((a :: b) ++ l2) := rfl
      rw [e1]
      show s ++ sep ++ joinSep sep ((a :: b) ++ l2) = _
      rw [ih l2 (by simp) h2]
      show _ = (s ++ sep ++ joinSep sep (a :: b)) ++ sep ++ joinSep sep l2
      simp [List.append_assoc]

lemma joinSep_flatten (sep : Str) (l1 m l2 : List Str) (hm : m ≠ []) :
    joinSep sep (l1 ++ joinSep sep m :: l2) = joinSep sep (l1 ++ (m ++ l2)) := by
  by_cases h1 : l1 = []
  · subst h1
    by_cases h2 : l2 = []
    · subst h2
      simp [joinSep_singleton]
    · rcases l2 with _ | ⟨u, v⟩
      · exact absurd rfl h2
      · show joinSep sep m ++ sep ++ joinSep sep (u :: v) = _
        rw [List.nil_append, joinSep_append sep m (u :: v) hm (by simp)]
  · by_cases h2 : l2 = []
    · subst h2
      have e1 : l1 ++ joinSep sep m :: ([] : List Str) = l1 ++ [joinSep sep m] := rfl
      rw [e1, joinSep_append sep l1 [joinSep sep m] h1 (by simp),
        List.append_nil, joinSep_append sep l1 m h1 hm]
      rfl
    · have e1 : l1 ++ joinSep sep m :: l2 = l1 ++ ([joinSep sep m] ++ l2) := rfl
      have hml2 : m ++ l2 ≠ [] := by
        intro hc
        rcases List.append_eq_nil.mp hc with ⟨hc1, -⟩
        exact hm hc1
      rw [e1, joinSep_append sep l1 ([joinSep sep m] ++ l2) h1 (by simp),
        joinSep_append sep [joinSep sep m] l2 (by simp) h2,
        joinSep_append sep l1 (m ++ l2) h1 hml2,
        joinSep_append sep m l2 hm h2, joinSep_singleton]

lemma hasContent_joinSep {sep : Str} {l : List Str} (hne : l ≠ [])
    (h : ∀ s ∈ l, hasContent s = true) : hasContent (joinSep sep l) = true := by
  cases l with
  | nil => exact absurd rfl hne
  | cons a t =>
    cases t with
    | nil => exact h a (by simp)
    | cons b u =>
      show hasContent (a ++ sep ++ joinSep sep (b :: u)) = true
      exact hasContent_append_left (hasContent_append_left (h a (by simp)))

lemma ne_nil_of_hasContent {l : Str} (h : hasContent l = true) : l ≠ [] := by
  intro hc
  subst hc
  simp [hasContent] at h

lemma isEmpty_false_of_ne {A : Type} {l : List A} (h : l ≠ []) : l.isEmpty = false := by
  cases l with
  | nil => exact absurd rfl h
  | cons a t => rfl

lemma ne_nil_of_and_not_isEmpty {b : Bool} {l : List Str}
    (h : (b && !l.isEmpty) = true) : l ≠ [] := by
  intro hc
  subst hc
  simp at h

/-- The common list-shape step of both appending branches of phase1Go:
absorbing one more paragraph into the current group commutes with
flattening. -/
lemma join_append_case (scenes current : List Str) (q : Str) (ps : List Str) :
    joinSep nlnl (scenes ++ (if (current ++ [q]).isEmpty then []
        else [joinSep nlnl (current ++ [q])]) ++ ps) =
    joinSep nlnl (scenes ++ (if current.isEmpty then [] else [joinSep nlnl current])
        ++ (q :: ps)) := by
  have hap : (current ++ [q]).isEmpty = false := by simp
  by_cases hcur : current = []
  · subst hcur
    simp [joinSep_singleton]
  · rw [hap, isEmpty_false_of_ne hcur]
    simp only [Bool.false_eq_true, if_false]
    have e1 : scenes ++ [joinSep nlnl (current ++ [q])] ++ ps
        = scenes ++ joinSep nlnl (current ++ [q]) :: ps := by simp
    have e2 : scenes ++ [joinSep nlnl current] ++ (q :: ps)
        = scenes ++ joinSep nlnl current :: (q :: ps) := by simp
    rw [e1, e2, joinSep_flatten nlnl scenes (current ++ [q]) ps (by simp),
      joinSep_flatten nlnl scenes current (q :: ps) hcur]
    simp [List.append_assoc]

lemma phase1Go_join (tok : Str → List Str) :
    ∀ (ps scenes current : List Str),
      joinSep nlnl (phase1Go tok scenes current ps) =
        joinSep nlnl
          (scenes ++ (if current.isEmpty then [] else [joinSep nlnl current]) ++ ps) := by
  intro ps
  induction ps with
  | nil =>
    intro scenes current
    cases hcur : current.isEmpty <;> simp [phase1Go, hcur]
  | cons q ps ih =>
    intro scenes current
    simp only [phase1Go]
    split
    · next hcond =>
      rw [ih (scenes ++ [joinSep nlnl current]) [q]]
      have hcurne : current ≠ [] := ne_nil_of_and_not_isEmpty hcond
      rw [isEmpty_false_of_ne hcurne]
      simp only [List.isEmpty_cons, Bool.false_eq_true, if_false, joinSep_singleton]
      have e1 : scenes ++ [joinSep nlnl current] ++ [q] ++ ps
          = scenes ++ [joinSep nlnl current] ++ (q :: ps) := by simp
      rw [e1]
    · split
      · rw [ih scenes (current ++ [q])]
        exact join_append_case scenes current q ps
      · rw [ih scenes (current ++ [q])]
        exact join_append_case scenes current q ps

lemma phase1Go_content (tok : Str → List Str) :
    ∀ (ps scenes current : List Str),
      (∀ s ∈ scenes, hasContent s = true) →
      (∀ s ∈ current, hasContent s = true) →
      (∀ s ∈ ps, hasContent s = true) →
      ∀ s ∈ phase1Go tok scenes current ps, hasContent s = true := by
  intro ps
  induction ps with
  | nil =>
    intro scenes current hs hc _ s hmem
    unfold phase1Go at hmem
    cases hcur : current.isEmpty with
    | true => rw [hcur] at hmem; simp at hmem; exact hs s hmem
    | false =>
      rw [hcur] at hmem
      simp at hmem
      rcases hmem with hmem | hmem
      · exact hs s hmem
      · subst hmem
        refine hasContent_joinSep ?_ hc
        intro hnil
        rw [hnil] at hcur
        simp at hcur
  | cons q ps ih =>
    intro scenes current hs hc hq s hmem
    simp only [phase1Go] at hmem
    split at hmem
    · next hcond =>
      refine ih (scenes ++ [joinSep nlnl current]) [q] ?_ ?_ ?_ s hmem
      · intro x hx
        rcases List.mem_append.mp hx with hx | hx
        · exact hs x hx
        · simp at hx
          subst hx
          exact hasContent_joinSep (ne_nil_of_and_not_isEmpty hcond) hc
      · intro y hy
        simp at hy
        subst hy
        exact hq _ (List.mem_cons_self _ _)
      · intro y hy
        exact hq y (List.mem_cons_of_mem _ hy)
    · split at hmem
      · refine ih scenes (current ++ [q]) hs ?_ ?_ s hmem
        · intro y hy
          rcases List.mem_append.mp hy with hy | hy
          · exact hc y hy
          · simp at hy
            subst hy
            exact hq _ (List.mem_cons_self _ _)
        · intro y hy
          exact hq y (List.mem_cons_of_mem _ hy)
      · refine ih scenes (current ++ [q]) hs ?_ ?_ s hmem
        · intro y hy
          rcases List.mem_append.mp hy with hy | hy
          · exact hc y hy
          · simp at hy
            subst hy
            exact hq _ (List.mem_cons_self _ _)
        · intro y hy
          exact hq y (List.mem_cons_of_mem _ hy)

lemma phase2Go_join (tok : Str → List Str) :
    ∀ (rest : List Str) (i : Nat) (final : List Str) (temp : Str),
      (∀ s ∈ rest, s ≠ []) →
      joinSep nlnl (phase2Go tok i final temp rest) =
        joinSep nlnl (final ++ (if temp.isEmpty then [] else [temp]) ++ rest) := by
  intro rest
  induction rest with
  | nil =>
    intro i final temp _
    cases htemp : temp.isEmpty <;> simp [phase2Go, htemp]
  | cons scene rest ih =>
    intro i final temp hr
    have hrest : ∀ s ∈ rest, s ≠ [] := fun y hy => hr y (List.mem_cons_of_mem _ hy)
    have hscene : scene ≠ [] := hr scene (List.mem_cons_self _ _)
    simp only [phase2Go]
    split
    · by_cases htemp : temp = []
      · subst htemp
        simp only [List.isEmpty_nil, if_true]
        rw [ih (i + 1) final scene hrest, isEmpty_false_of_ne hscene]
        simp
      · rw [isEmpty_false_of_ne htemp]
        simp only [Bool.false_eq_true, if_false]
        have hne2 : temp ++ nlnl ++ scene ≠ [] := by
          simp [htemp, nlnl]
        rw [ih (i + 1) final (temp ++ nlnl ++ scene) hrest, isEmpty_false_of_ne hne2]
        simp only [Bool.false_eq_true, if_false]
        have e0 : temp ++ nlnl ++ scene = joinSep nlnl [temp, scene] := rfl
        have e1 : final ++ [joinSep nlnl [temp, scene]] ++ rest
            = final ++ joinSep nlnl [temp, scene] :: rest := by simp
        rw [e0, e1, joinSep_flatten nlnl final [temp, scene] rest (by simp)]
        simp
    · by_cases htemp : temp = []
      · subst htemp
        simp only [List.isEmpty_nil, if_true]
        rw [ih (i + 1) (final ++ [scene]) [] hrest]
        simp
      · rw [isEmpty_false_of_ne htemp]
        simp only [Bool.false_eq_true, if_false]
        rw [ih (i + 1) (final ++ [temp, scene]) [] hrest]
        simp

lemma phase2Go_content (tok : Str → List Str) :
    ∀ (rest : List Str) (i : Nat) (final : List Str) (temp : Str),
      (∀ s ∈ final, hasContent s = true) →
      (temp = [] ∨ hasContent temp = true) →
      (∀ s ∈ rest, hasContent s = true) →
      ∀ s ∈ phase2Go tok i final temp rest, hasContent s = true := by
  intro rest
  induction rest with
  | nil =>
    intro i final temp hf ht _ s hmem
    unfold phase2Go at hmem
    cases htemp : temp.isEmpty with
    | true => rw [htemp] at hmem; simp at hmem; exact hf s hmem
    | false =>
      rw [htemp] at hmem
      simp at hmem
      rcases hmem with hmem | hmem
      · exact hf s hmem
      · subst hmem
        rcases ht with ht | ht
        · rw [ht] at htemp; simp at htemp
        · exact ht
  | cons scene rest ih =>
    intro i final temp hf ht hr s hmem
    have hrest : ∀ s ∈ rest, hasContent s = true :=
      fun y hy => hr y (List.mem_cons_of_mem _ hy)
    have hscene : hasContent scene = true := hr scene (List.mem_cons_self _ _)
    simp only [phase2Go] at hmem
    split at hmem
    · refine ih (i + 1) final _ hf ?_ hrest s hmem
      by_cases htemp : temp = []
      · subst htemp
        simp only [List.isEmpty_nil, if_true]
        exact Or.inr hscene
      · rw [isEmpty_false_of_ne htemp]
        simp only [Bool.false_eq_true, if_false]
        rcases ht with ht | ht
        · exact absurd ht htemp
        · exact Or.inr (hasContent_append_left (hasContent_append_left ht))
    · refine ih (i + 1) _ [] ?_ (Or.inl rfl) hrest s hmem
      by_cases htemp : temp = []
      · subst htemp
        simp only [List.isEmpty_nil, if_true]
        intro y hy
        rcases List.mem_append.mp hy with hy | hy
        · exact hf y hy
        · simp at hy
          subst hy
          exact hscene
      · rw [isEmpty_false_of_ne htemp]
        simp only [Bool.false_eq_true, if_false]
        intro y hy
        rcases List.mem_append.mp hy with hy | hy
        · exact hf y hy
        · rcases ht with ht | ht
          · exact absurd ht htemp
          · simp at hy
            rcases hy with hy | hy <;> subst hy
            · exact ht
            · exact hscene

lemma foldl_append_singleton {A : Type} :
    ∀ (l acc : List A), l.foldl (fun a s => a ++ [s]) acc = acc ++ l := by
  intro l
  induction l with
  | nil => intro acc; simp
  | cons s t ih =>
    intro acc
    show t.foldl (fun a s => a ++ [s]) (acc ++ [s]) = acc ++ s :: t
    rw [ih (acc ++ [s])]
    simp

lemma phase3_eq (final : List Str) : phase3 final = final := by
  unfold phase3
  rw [foldl_append_singleton]
  rfl

lemma paragraphsOf_content (script : Str) :
    ∀ p ∈ paragraphsOf script, hasContent p = true := by
  intro p hp
  unfold paragraphsOf at hp
  rcases List.mem_filter.mp hp with ⟨hmem, hne⟩
  rcases List.mem_map.mp hmem with ⟨q, -, rfl⟩
  have hq : pyStrip q ≠ [] := by simpa using hne
  exact hasContent_pyStrip (hasContent_of_pyStrip_ne_nil hq)

/-- C8: split_script_into_scenes returns the empty list (not an error) on
empty or whitespace-only input; every returned scene is non-empty after
trimming; and for non-whitespace input the scenes preserve script order:
joined back with the paragraph separator they reproduce the paragraph
sequence of the script, so concatenation order matches first-appearance
order. The sentence tokenizer is arbitrary. -/
theorem segment_scenes_contract (tok : Str → List Str) (script : Str) :
    ((script.isEmpty = true ∨ (pyStrip script).isEmpty = true) →
      split_script_into_scenes tok script = []) ∧
    (∀ scene ∈ split_script_into_scenes tok script, pyStrip scene ≠ []) ∧
    ((pyStrip script).isEmpty = false →
      joinSep nlnl (split_script_into_scenes tok script) =
        joinSep nlnl (paragraphsOf script)) := by
  have hphase1 : ∀ s ∈ phase1Go tok [] [] (paragraphsOf script), hasContent s = true :=
    phase1Go_content tok (paragraphsOf script) [] [] (by simp) (by simp)
      (paragraphsOf_content script)
  have hcontent : ∀ s ∈ phase2Go tok 0 [] []
      (phase1Go tok [] [] (paragraphsOf script)), hasContent s = true :=
    phase2Go_content tok _ 0 [] [] (by simp) (Or.inl rfl) hphase1
  refine ⟨?_, ?_, ?_⟩
  · rintro (h | h) <;> simp [split_script_into_scenes, h]
  · intro scene hmem
    unfold split_script_into_scenes at hmem
    split at hmem
    · simp at hmem
    · rw [phase3_eq] at hmem
      exact pyStrip_ne_nil_of_hasContent (hcontent scene hmem)
  · intro hne
    have hscript : script.isEmpty = false := by
      cases hs : script with
      | nil => rw [hs] at hne; simp [pyStrip, lstrip, rstrip] at hne
      | cons a t => rfl
    have hguard : (script.isEmpty || (pyStrip script).isEmpty) = false := by
      rw [hscript, hne]
      rfl
    simp only [split_script_into_scenes, hguard, Bool.false_eq_true, if_false]
    rw [phase3_eq,
      phase2Go_join tok (phase1Go tok [] [] (paragraphsOf script)) 0 [] []
        (fun s hs => ne_nil_of_hasContent (hphase1 s hs))]
    simp only [List.isEmpty_nil, if_true, List.nil_append]
    rw [phase1Go_join tok (paragraphsOf script) [] []]
    simp

/-- Witness for segment_scenes_contract: a concrete script and the
one-sentence tokenizer. -/
theorem segment_scenes_contract_witness :
    joinSep nlnl (split_script_into_scenes (fun s => [s]) "Hi there".toList) =
      joinSep nlnl (paragraphsOf "Hi there".toList) :=
  (segment_scenes_contract (fun s => [s]) "Hi there".toList).2.2 (by decide)
